import Mathlib

/-!
Verification of `user/primes.c` (concurrent prime sieve over pipes).

The program is a pipeline: `main` creates a pipe, forks; the child runs
`sieve` (stage 0) on the read end while the parent runs `feed_numbers`,
writing the integers 2..35 into the write end, then closes it, waits for
the child and exits 0.  Each `sieve` stage reads its first value `p`
(its prime), prints `prime p`, pre-reads until it sees a value not
divisible by `p`, and only then creates a pipe and forks the next stage,
forwarding the surviving values.

The embedding below is a shallow functional model of that dataflow.
Syscall failures are injected through Boolean oracles:
  * `wr i`        — does the feeder's `write` of value `i` succeed;
  * `swr d x`     — does stage `d`'s `write` of value `x` to its output
                    pipe succeed;
  * `pipeOk d` / `forkOk d` — do the `pipe()` / `fork()` calls that
                    create stage `d` succeed.
Each process's sequential behaviour is recorded as a trace of events
(prints to stdout, error reports to stderr, `close` of pipe ends,
`fork`, `wait`, `exit`).  Channel `c` connects stage `c-1` to stage `c`
(channel 0 is the pipe created in `main`); `closeR c` / `closeW c` model
`close` of that channel's read / write file descriptor in the calling
process.  The only writes to stdout in the whole program are the
`printf("prime %d\n", p)` at the top of `sieve`, so the `print` events
are exactly the program's output lines.
-/

/-- One observable event in the sequential trace of a single process. -/
inductive Ev where
  /-- `printf("prime %d\n", v)` — one line of standard output. -/
  | print (v : Nat)
  /-- `fprintf(2, ...)` — an error report on standard error. -/
  | err
  /-- `close` of the read end of channel `c`. -/
  | closeR (c : Nat)
  /-- `close` of the write end of channel `c`. -/
  | closeW (c : Nat)
  /-- a successful `fork()` spawning the successor stage. -/
  | fork
  /-- `wait(0)` — joining the child process. -/
  | wait
  /-- `exit(s)` with status `s`. -/
  | exitEv (s : Nat)
deriving DecidableEq, Repr

/-- Result of running one sieve stage and (transitively) its successors:
the `prime` lines printed by this stage and everything downstream, this
stage's own exit status, and the per-process traces (this stage's first). -/
structure Res where
  printed : List Nat
  status : Nat
  traces : List (List Ev)
deriving DecidableEq, Repr

/-- The pre-read loop of `sieve` (primes.c lines 33–40): scan the input
for the first value not divisible by `p`; return it together with the
rest of the stream, or `none` if the stream ends first. -/
def preRead (p : Nat) : List Nat → Option (Nat × List Nat)
  | [] => none
  | x :: rest => if x % p != 0 then some (x, rest) else preRead p rest

/-- The forwarding loop of `sieve` (primes.c lines 92–99): forward every
value not divisible by `p` to the output channel; a failed `write`
reports `write error` and breaks the loop.  Returns the values actually
written and whether the loop was broken by a write failure. -/
def forward (ok : Nat → Bool) (p : Nat) : List Nat → List Nat × Bool
  | [] => ([], false)
  | x :: rest =>
    if x % p != 0 then
      if ok x then
        let r := forward ok p rest
        (x :: r.1, r.2)
      else ([], true)
    else forward ok p rest

/-- The trace of the parent side of a stage at depth `d` that
successfully spawned its successor (primes.c lines 74–105): close
`next[0]`, report a failed first write (`w1 = false`), report a write
failure that broke the forwarding loop (`broke = true`), then
`close(leftfd); close(next[1]); wait(0); exit(0)`. -/
def selfTrace (d p : Nat) (w1 broke : Bool) : List Ev :=
  [Ev.print p, Ev.fork, Ev.closeR (d + 1)]
    ++ (if w1 then [] else [Ev.err])
    ++ (if broke then [Ev.err] else [])
    ++ [Ev.closeR d, Ev.closeW (d + 1), Ev.wait, Ev.exitEv 0]

/-- Assemble the result of a stage at depth `d` that spawned a
successor: its own printed prime and trace in front of the child's,
with the child's first trace extended by the `close(next[1]);
close(leftfd)` the child performs before recursing (primes.c lines
65–72). -/
def assemble (d p : Nat) (w1 broke : Bool) (child : Res) : Res :=
  match child.traces with
  | [] => ⟨p :: child.printed, 0, [selfTrace d p w1 broke]⟩
  | ct :: cts =>
    ⟨p :: child.printed, 0,
     selfTrace d p w1 broke :: (Ev.closeW (d + 1) :: Ev.closeR d :: ct) :: cts⟩

/-- One stage of the sieve, `sieve(leftfd)` in primes.c (lines 21–106),
with a structural fuel argument (`sieve` recurses on a strictly shorter
stream, so any fuel `≥` the input length gives the real behaviour).
`d` is this stage's depth: its input is channel `d`, its output (if
created) channel `d+1`.

Paths, in source order:
  * input empty (read of `p` fails): `close(leftfd); exit(0)`;
  * `printf("prime %d\n", p)`; pre-read loop finds no survivor:
    `close(leftfd); exit(0)`;
  * `pipe(next) < 0`: report, `close(leftfd)`, `exit(1)`;
  * `fork() < 0`: report, `close(leftfd)`, `close(next[0])`,
    `close(next[1])`, `exit(1)`;
  * otherwise the child closes `next[1]` and `leftfd` and recurses at
    depth `d+1` on the values that actually reach it, while the parent
    closes `next[0]`, writes the pre-read survivor (a failure is
    reported but the loop still runs), runs the forwarding loop, then
    `close(leftfd); close(next[1]); wait(0); exit(0)`. -/
def sieveAux (pipeOk forkOk : Nat → Bool) (swr : Nat → Nat → Bool) :
    Nat → Nat → List Nat → Res
  | _, d, [] => ⟨[], 0, [[Ev.closeR d, Ev.exitEv 0]]⟩
  | 0, d, _ :: _ => ⟨[], 0, [[Ev.closeR d, Ev.exitEv 0]]⟩
  | n + 1, d, p :: rest =>
    match preRead p rest with
    | none => ⟨[p], 0, [[Ev.print p, Ev.closeR d, Ev.exitEv 0]]⟩
    | some (x, rest2) =>
      if pipeOk (d + 1) = false then
        ⟨[p], 1, [[Ev.print p, Ev.err, Ev.closeR d, Ev.exitEv 1]]⟩
      else if forkOk (d + 1) = false then
        ⟨[p], 1, [[Ev.print p, Ev.err, Ev.closeR d, Ev.closeR (d + 1),
                   Ev.closeW (d + 1), Ev.exitEv 1]]⟩
      else
        assemble d p (swr d x) (forward (swr d) p rest2).2
          (sieveAux pipeOk forkOk swr n (d + 1)
            ((if swr d x then [x] else []) ++ (forward (swr d) p rest2).1))

/-- `sieve` run with enough fuel for its input. -/
def sieve (pipeOk forkOk : Nat → Bool) (swr : Nat → Nat → Bool)
    (d : Nat) (l : List Nat) : Res :=
  sieveAux pipeOk forkOk swr l.length d l

/-- The feeder loop of `feed_numbers` (primes.c lines 5–12) over the
list of candidate values: write each value in order; the first failed
`write` reports `writer: write error` and calls `exit(1)`, abandoning
the remaining values.  Returns the values successfully written and the
status (`1` if `exit(1)` was taken, else `0`, i.e. normal return). -/
def feedLoop (wr : Nat → Bool) : List Nat → List Nat × Nat
  | [] => ([], 0)
  | i :: rest =>
    if wr i then
      let r := feedLoop wr rest
      (i :: r.1, r.2)
    else ([], 1)

/-- `feed_numbers`: the `for (int i = 2; i <= 35; i++)` loop writes the
integers 2..35, i.e. iterates over `List.range' 2 34`. -/
def feed_numbers (wr : Nat → Bool) : List Nat × Nat :=
  feedLoop wr (List.range' 2 34)

/-- The driver's exit status (`main`'s parent branch, primes.c lines
150–156): `feed_numbers` calls `exit(1)` from inside the driver process
when a write fails; otherwise the driver closes the write end, calls
`wait(0)` — discarding the child's status — and exits 0. -/
def driverStatus (wr : Nat → Bool) : Nat :=
  if (feed_numbers wr).2 == 1 then 1 else 0

/-- The driver process's own trace (`main`, parent branch): it forks
stage 0, closes its copy of the read end of channel 0, feeds; if feeding
fails it reports and exits 1 (never reaching `close(p[1])` or
`wait(0)`), otherwise it closes the write end, waits for stage 0 and
exits 0. -/
def driverTrace (wr : Nat → Bool) : List Ev :=
  Ev.fork :: Ev.closeR 0 ::
    (if (feed_numbers wr).2 == 1 then [Ev.err, Ev.exitEv 1]
     else [Ev.closeW 0, Ev.wait, Ev.exitEv 0])

/-- Result of a whole program run: the `prime` lines printed, the
driver's exit status, the traces of all sieve stages (stage 0 first,
with its initial `close(p[1])` from `main`'s child branch prepended),
and the driver's own trace. -/
structure ProgRes where
  printed : List Nat
  status : Nat
  traces : List (List Ev)
  dtrace : List Ev
deriving DecidableEq, Repr

/-- A whole run of the program (`main`, primes.c lines 109–158): the
child receives exactly the values the feeder successfully wrote. -/
def programRun (wr : Nat → Bool) (swr : Nat → Nat → Bool)
    (pipeOk forkOk : Nat → Bool) : ProgRes :=
  let f := feed_numbers wr
  let r := sieve pipeOk forkOk swr 0 f.1
  match r.traces with
  | [] => ⟨r.printed, driverStatus wr, [], driverTrace wr⟩
  | t :: ts =>
    ⟨r.printed, driverStatus wr, (Ev.closeW 0 :: t) :: ts, driverTrace wr⟩

/-- The all-succeed oracle for single-index syscalls. -/
def okB : Nat → Bool := fun _ => true

/-- The all-succeed oracle for stage writes. -/
def okS : Nat → Nat → Bool := fun _ _ => true

/-- The run of the program as shipped: no syscall fails. -/
def defaultRun : ProgRes := programRun okB okS okB okB

/-- The input stream of the next stage under failure-free forwarding:
the pre-read survivor followed by the surviving remainder (primes.c
lines 33–40 and 84–99 with every `write` succeeding); empty when the
stage never spawns a successor. -/
def nextInput (l : List Nat) : List Nat :=
  match l with
  | [] => []
  | p :: rest =>
    match preRead p rest with
    | none => []
    | some (x, rest2) => x :: rest2.filter (fun y => y % p != 0)

/-- The input stream of stage `i` in the shipped, failure-free run:
stage 0 reads the fed range 2..35, stage `i+1` reads what stage `i`
forwards. -/
def stageInput : Nat → List Nat
  | 0 => List.range' 2 34
  | i + 1 => nextInput (stageInput i)

/-- The designated prime of stage `i` in the shipped run: the first
value it reads (0 if its input is empty). -/
def primeAt (i : Nat) : Nat := (stageInput i).headD 0

/-- `main(argc, argv)`: the body of `main` (primes.c lines 109–158)
never mentions `argc` or `argv`; it runs the pipeline on the fixed range
2..35 and the pair (printed lines, exit status) is that of the shipped
run. -/
def mainRun (_argv : List String) : List Nat × Nat :=
  (defaultRun.printed, defaultRun.status)

/-- A feeder-write oracle under which the `write` of value 5 fails. -/
def wr5 : Nat → Bool := fun i => decide (i ≠ 5)

/-- A fork oracle under which creating the 4th stage (depth 3) fails. -/
def f3 : Nat → Bool := fun d => decide (d ≠ 3)

/-- A pipe oracle under which creating the 4th stage's channel fails. -/
def p3 : Nat → Bool := fun d => decide (d ≠ 3)

/-- A pipe oracle under which stage 0's `pipe(next)` call fails. -/
def pipeFail1 : Nat → Bool := fun d => decide (d ≠ 1)

/-- A stage-write oracle under which every stage `write` fails. -/
def swrBad : Nat → Nat → Bool := fun _ _ => false

/-! ### Helper lemmas -/

/-- The pre-read loop consumes at least one element of the stream. -/
theorem preRead_some_length {p : Nat} :
    ∀ {l : List Nat} {x : Nat} {r2 : List Nat},
      preRead p l = some (x, r2) → r2.length < l.length := by
  intro l
  induction l with
  | nil => intro x r2 h; simp [preRead] at h
  | cons a rest ih =>
    intro x r2 h
    by_cases ha : (a % p != 0) = true
    · simp [preRead, ha] at h
      simp [h.2]
    · simp [preRead, ha] at h
      exact Nat.lt_trans (ih h) (Nat.lt_succ_self _)

/-- The forwarding loop writes at most as many values as it scans. -/
theorem forward_fst_length (ok : Nat → Bool) (p : Nat) :
    ∀ l : List Nat, ((forward ok p l).1).length ≤ l.length := by
  intro l
  induction l with
  | nil => simp [forward]
  | cons a rest ih =>
    by_cases ha : (a % p != 0) = true
    · by_cases hok : ok a = true
      · simp [forward, ha, hok]
        exact ih
      · simp [forward, ha, hok]
    · simp [forward, ha]
      exact Nat.le_succ_of_le ih

/-- The feeder loop exits with status 1 exactly when some write fails. -/
theorem feedLoop_snd (wr : Nat → Bool) :
    ∀ l : List Nat, (feedLoop wr l).2 = if l.all wr then 0 else 1 := by
  intro l
  induction l with
  | nil => simp [feedLoop]
  | cons a rest ih =>
    by_cases ha : wr a = true
    · simp [feedLoop, ha, ih]
    · simp [feedLoop, ha]

/-- The values the feeder loop writes form a prefix of its range. -/
theorem feedLoop_fst_app (wr : Nat → Bool) :
    ∀ l : List Nat, ∃ t, (feedLoop wr l).1 ++ t = l := by
  intro l
  induction l with
  | nil => exact ⟨[], rfl⟩
  | cons a rest ih =>
    by_cases ha : wr a = true
    · obtain ⟨t, ht⟩ := ih
      exact ⟨t, by simp [feedLoop, ha, ht]⟩
    · exact ⟨a :: rest, by simp [feedLoop, ha]⟩

/-- A feeder loop that returns normally wrote its whole range. -/
theorem feedLoop_fst_complete (wr : Nat → Bool) :
    ∀ l : List Nat, (feedLoop wr l).2 = 0 → (feedLoop wr l).1 = l := by
  intro l
  induction l with
  | nil => intro _; rfl
  | cons a rest ih =>
    intro h
    by_cases ha : wr a = true
    · simp [feedLoop, ha] at h ⊢
      exact ih h
    · simp [feedLoop, ha] at h

/-- The trace of a spawning parent ends by closing its output write end,
waiting for the child, and exiting 0. -/
theorem selfTrace_suffix (d p : Nat) (w1 broke : Bool) :
    ∃ pre, selfTrace d p w1 broke
      = pre ++ [Ev.closeW (d + 1), Ev.wait, Ev.exitEv 0] := by
  refine ⟨[Ev.print p, Ev.fork, Ev.closeR (d + 1)]
    ++ (if w1 then [] else [Ev.err])
    ++ (if broke then [Ev.err] else [])
    ++ [Ev.closeR d], ?_⟩
  simp [selfTrace]


/-- Unfolding equation: empty input. -/
theorem sieveAux_nil (P F : Nat → Bool) (S : Nat → Nat → Bool)
    (n d : Nat) :
    sieveAux P F S n d [] = ⟨[], 0, [[Ev.closeR d, Ev.exitEv 0]]⟩ := by
  cases n <;> rfl

/-- Unfolding equation: no surviving value after the prime. -/
theorem sieveAux_none (P F : Nat → Bool) (S : Nat → Nat → Bool)
    {p : Nat} {rest : List Nat} (n d : Nat)
    (hpr : preRead p rest = none) :
    sieveAux P F S (n + 1) d (p :: rest)
      = ⟨[p], 0, [[Ev.print p, Ev.closeR d, Ev.exitEv 0]]⟩ := by
  simp [sieveAux, hpr]

/-- Unfolding equation: `pipe(next)` fails. -/
theorem sieveAux_pipeFail (P F : Nat → Bool) (S : Nat → Nat → Bool)
    {p x : Nat} {rest rest2 : List Nat} (n d : Nat)
    (hpr : preRead p rest = some (x, rest2)) (hp : P (d + 1) = false) :
    sieveAux P F S (n + 1) d (p :: rest)
      = ⟨[p], 1, [[Ev.print p, Ev.err, Ev.closeR d, Ev.exitEv 1]]⟩ := by
  simp [sieveAux, hpr, hp]

/-- Unfolding equation: `fork()` fails. -/
theorem sieveAux_forkFail (P F : Nat → Bool) (S : Nat → Nat → Bool)
    {p x : Nat} {rest rest2 : List Nat} (n d : Nat)
    (hpr : preRead p rest = some (x, rest2)) (hp : P (d + 1) = true)
    (hf : F (d + 1) = false) :
    sieveAux P F S (n + 1) d (p :: rest)
      = ⟨[p], 1, [[Ev.print p, Ev.err, Ev.closeR d, Ev.closeR (d + 1),
                   Ev.closeW (d + 1), Ev.exitEv 1]]⟩ := by
  simp [sieveAux, hpr, hp, hf]

/-- Unfolding equation: the successor is spawned. -/
theorem sieveAux_spawn (P F : Nat → Bool) (S : Nat → Nat → Bool)
    {p x : Nat} {rest rest2 : List Nat} (n d : Nat)
    (hpr : preRead p rest = some (x, rest2)) (hp : P (d + 1) = true)
    (hf : F (d + 1) = true) :
    sieveAux P F S (n + 1) d (p :: rest)
      = assemble d p (S d x) (forward (S d) p rest2).2
          (sieveAux P F S n (d + 1)
            ((if S d x then [x] else []) ++ (forward (S d) p rest2).1)) := by
  simp [sieveAux, hpr, hp, hf]

/-- Membership in the traces of an assembled stage result. -/
theorem assemble_mem {d p : Nat} {w1 broke : Bool} {child : Res}
    {tr : List Ev} (h : tr ∈ (assemble d p w1 broke child).traces) :
    tr = selfTrace d p w1 broke
      ∨ (∃ ct ∈ child.traces, tr = Ev.closeW (d + 1) :: Ev.closeR d :: ct)
      ∨ tr ∈ child.traces := by
  rcases hct : child.traces with _ | ⟨ct, cts⟩ <;>
    simp only [assemble, hct] at h
  · simp at h
    exact Or.inl h
  · rcases List.mem_cons.mp h with h1 | h1
    · exact Or.inl h1
    · rcases List.mem_cons.mp h1 with h2 | h2
      · exact Or.inr (Or.inl ⟨ct, by simp [hct], h2⟩)
      · exact Or.inr (Or.inr (by simp [hct, h2]))

/-- An assembled result has at most one more trace than the child's. -/
theorem assemble_traces_length (d p : Nat) (w1 broke : Bool) (child : Res) :
    ((assemble d p w1 broke child).traces).length
      ≤ child.traces.length + 1 := by
  rcases hct : child.traces with _ | ⟨ct, cts⟩ <;> simp [assemble, hct]

/-- The chain processing a stream of length `k` consists of at most
`k + 1` processes, whatever the fuel and whatever failures occur. -/
theorem sieveAux_traces_length (P F : Nat → Bool) (S : Nat → Nat → Bool) :
    ∀ n d l, ((sieveAux P F S n d l).traces).length ≤ l.length + 1 := by
  intro n
  induction n with
  | zero => intro d l; cases l <;> simp [sieveAux]
  | succ n ih =>
    intro d l
    cases l with
    | nil => simp [sieveAux_nil]
    | cons p rest =>
      rcases hpr : preRead p rest with _ | ⟨x, rest2⟩
      · simp [sieveAux_none P F S n d hpr]
      · rcases hp : P (d + 1) with _ | _
        · simp [sieveAux_pipeFail P F S n d hpr hp]
        · rcases hf : F (d + 1) with _ | _
          · simp [sieveAux_forkFail P F S n d hpr hp hf]
          · rw [sieveAux_spawn P F S n d hpr hp hf]
            have h1 := assemble_traces_length d p (S d x)
              (forward (S d) p rest2).2
              (sieveAux P F S n (d + 1)
                ((if S d x then [x] else []) ++ (forward (S d) p rest2).1))
            have h2 := ih (d + 1)
              ((if S d x then [x] else []) ++ (forward (S d) p rest2).1)
            have h3 : ((if S d x then [x] else [])
                ++ (forward (S d) p rest2).1).length ≤ rest.length := by
              have h4 := forward_fst_length (S d) p rest2
              have h5 := preRead_some_length (p := p) hpr
              rcases hS : S d x <;> simp [hS] <;> omega
            simp only [List.length_cons]
            omega

/-- Every process trace in a chain ends with an `exit` event: every
spawned unit terminates. -/
theorem sieveAux_ends_exit (P F : Nat → Bool) (S : Nat → Nat → Bool) :
    ∀ n d l, ∀ tr ∈ (sieveAux P F S n d l).traces,
      ∃ s pre, tr = pre ++ [Ev.exitEv s] := by
  intro n
  induction n with
  | zero =>
    intro d l tr htr
    cases l with
    | nil =>
      rw [sieveAux_nil] at htr
      simp at htr
      exact ⟨0, [Ev.closeR d], by simp [htr]⟩
    | cons p rest =>
      simp [sieveAux] at htr
      exact ⟨0, [Ev.closeR d], by simp [htr]⟩
  | succ n ih =>
    intro d l tr htr
    cases l with
    | nil =>
      rw [sieveAux_nil] at htr
      simp at htr
      exact ⟨0, [Ev.closeR d], by simp [htr]⟩
    | cons p rest =>
      rcases hpr : preRead p rest with _ | ⟨x, rest2⟩
      · rw [sieveAux_none P F S n d hpr] at htr
        simp at htr
        exact ⟨0, [Ev.print p, Ev.closeR d], by simp [htr]⟩
      · rcases hp : P (d + 1) with _ | _
        · rw [sieveAux_pipeFail P F S n d hpr hp] at htr
          simp at htr
          exact ⟨1, [Ev.print p, Ev.err, Ev.closeR d], by simp [htr]⟩
        · rcases hf : F (d + 1) with _ | _
          · rw [sieveAux_forkFail P F S n d hpr hp hf] at htr
            simp at htr
            exact ⟨1, [Ev.print p, Ev.err, Ev.closeR d, Ev.closeR (d + 1),
              Ev.closeW (d + 1)], by simp [htr]⟩
          · rw [sieveAux_spawn P F S n d hpr hp hf] at htr
            rcases assemble_mem htr with h | ⟨ct, hct, h⟩ | h
            · obtain ⟨pre, hpre⟩ := selfTrace_suffix d p (S d x)
                (forward (S d) p rest2).2
              exact ⟨0, pre ++ [Ev.closeW (d + 1), Ev.wait],
                by simp [h, hpre]⟩
            · obtain ⟨s, pre, hpre⟩ := ih (d + 1) _ ct hct
              exact ⟨s, Ev.closeW (d + 1) :: Ev.closeR d :: pre,
                by simp [h, hpre]⟩
            · exact ih (d + 1) _ tr h

/-- Every process trace that records a successful `fork` ends by closing
the output write end, then waiting for the child, then exiting 0: a
spawning stage never terminates before joining its successor. -/
theorem sieveAux_fork_joins (P F : Nat → Bool) (S : Nat → Nat → Bool) :
    ∀ n d l, ∀ tr ∈ (sieveAux P F S n d l).traces, Ev.fork ∈ tr →
      ∃ pre c, tr = pre ++ [Ev.closeW c, Ev.wait, Ev.exitEv 0] := by
  intro n
  induction n with
  | zero =>
    intro d l tr htr hfork
    cases l with
    | nil =>
      rw [sieveAux_nil] at htr
      simp at htr
      simp [htr] at hfork
    | cons p rest =>
      simp [sieveAux] at htr
      simp [htr] at hfork
  | succ n ih =>
    intro d l tr htr hfork
    cases l with
    | nil =>
      rw [sieveAux_nil] at htr
      simp at htr
      simp [htr] at hfork
    | cons p rest =>
      rcases hpr : preRead p rest with _ | ⟨x, rest2⟩
      · rw [sieveAux_none P F S n d hpr] at htr
        simp at htr
        simp [htr] at hfork
      · rcases hp : P (d + 1) with _ | _
        · rw [sieveAux_pipeFail P F S n d hpr hp] at htr
          simp at htr
          simp [htr] at hfork
        · rcases hf : F (d + 1) with _ | _
          · rw [sieveAux_forkFail P F S n d hpr hp hf] at htr
            simp at htr
            simp [htr] at hfork
          · rw [sieveAux_spawn P F S n d hpr hp hf] at htr
            rcases assemble_mem htr with h | ⟨ct, hct, h⟩ | h
            · obtain ⟨pre, hpre⟩ := selfTrace_suffix d p (S d x)
                (forward (S d) p rest2).2
              exact ⟨pre, d + 1, by rw [h, hpre]⟩
            · have hforkct : Ev.fork ∈ ct := by
                rw [h] at hfork
                simpa using hfork
              obtain ⟨pre, c, hpre⟩ := ih (d + 1) _ ct hct hforkct
              exact ⟨Ev.closeW (d + 1) :: Ev.closeR d :: pre, c,
                by simp [h, hpre]⟩
            · exact ih (d + 1) _ tr h hfork

/-! ### Claims -/

/-- C1: in the shipped run (default bound 35), the printed output is
exactly one `prime v` line for each prime `v` in `[2, 35]`, in strictly
ascending order, with no duplicates and no other lines (the `print`
events modelled by `printed` are the program's only stdout writes). -/
theorem claim_C1_output_primes :
    defaultRun.printed
        = (List.range' 2 34).filter (fun v => decide (Nat.Prime v))
      ∧ List.Pairwise (· < ·) defaultRun.printed
      ∧ defaultRun.printed.map (fun v => "prime " ++ toString v)
        = ["prime 2", "prime 3", "prime 5", "prime 7", "prime 11",
           "prime 13", "prime 17", "prime 19", "prime 23", "prime 29",
           "prime 31"] :=
  ⟨by decide, by decide, by rfl⟩

/-- C2 (counterexample): with stage 0's `pipe(next)` call failing, a
component reports an error and exits with status 1, yet the driver's
exit status is 0 — the exit status does not reflect component errors. -/
theorem claim_C2_counterexample :
    ((programRun okB okS pipeFail1 okB).traces.any
        fun tr => tr.contains (Ev.exitEv 1)) = true
      ∧ ((programRun okB okS pipeFail1 okB).traces.any
          fun tr => tr.contains Ev.err) = true
      ∧ (programRun okB okS pipeFail1 okB).status = 0 := by
  decide

/-- C2 (amended): the driver's exit status is 0 exactly when every
feeder write succeeds, regardless of any failure in the sieve stages
(`wait(0)` discards the child's status). -/
theorem claim_C2_amended :
    ∀ (wr : Nat → Bool) (swr : Nat → Nat → Bool) (pipeOk forkOk : Nat → Bool),
      (programRun wr swr pipeOk forkOk).status = 0
        ↔ (List.range' 2 34).all wr = true := by
  intro wr swr pipeOk forkOk
  have hst : (programRun wr swr pipeOk forkOk).status = driverStatus wr := by
    rcases h : (sieve pipeOk forkOk swr 0 (feed_numbers wr).1).traces
      with _ | ⟨t, ts⟩ <;> simp [programRun, h]
  rw [hst, driverStatus, feed_numbers, feedLoop_snd]
  rcases hall : (List.range' 2 34).all wr <;> simp [hall]

/-- C3 (counterexample): in the shipped run, the number of stages ever
created (one process trace per stage) is not the number of primes found
plus one — it is 11 (one per prime), not 12. -/
theorem claim_C3_counterexample :
    ¬ (defaultRun.traces.length = defaultRun.printed.length + 1) := by
  decide

/-- C3 (amended): in the shipped run, the number of stages ever created
equals the number of primes found (11; only counting the feeder too does
the chain have primes + 1 units); each stage forks at most once, and
stage `j` forks exactly when a survivor of its filter exists in its
input. -/
theorem claim_C3_amended :
    defaultRun.traces.length = defaultRun.printed.length
      ∧ (defaultRun.traces.all
          fun tr => decide (tr.count Ev.fork ≤ 1)) = true
      ∧ (∀ j, j < 11 →
          ((defaultRun.traces.getD j []).contains Ev.fork = true
            ↔ nextInput (stageInput j) ≠ [])) := by
  decide

/-- C3 (witness): the amended claim instantiated at stage 0, which did
fork because a survivor of the filter by 2 exists. -/
theorem claim_C3_amended_witness :
    (defaultRun.traces.getD 0 []).contains Ev.fork = true
      ↔ nextInput (stageInput 0) ≠ [] :=
  claim_C3_amended.2.2 0 (by decide)

/-- C4: in the shipped run's chain of 11 stages, stage `j`'s designated
prime is the `j`-th printed prime, the designated primes are strictly
increasing in the stage index, and every value in stage `j`'s input
stream is divisible by none of the earlier stages' primes. -/
theorem claim_C4_chain_invariant :
    ∀ j, j < 11 →
      (defaultRun.printed[j]? = (stageInput j).head?)
        ∧ ∀ i, i < j →
            primeAt i < primeAt j
              ∧ ∀ v ∈ stageInput j, v % primeAt i ≠ 0 := by
  decide

/-- C4 (witness): the invariant instantiated at stages 0 and 1. -/
theorem claim_C4_witness :
    defaultRun.printed[1]? = (stageInput 1).head?
      ∧ primeAt 0 < primeAt 1 :=
  ⟨(claim_C4_chain_invariant 1 (by decide)).1,
   ((claim_C4_chain_invariant 1 (by decide)).2 0 (by decide)).1⟩

/-- C5 (counterexample): when a feeder write fails, the driver — which
did fork stage 0, and whose chain did run — exits with status 1 without
ever waiting, so the driver can return before every transitively spawned
unit has been joined. -/
theorem claim_C5_counterexample :
    (programRun wr5 okS okB okB).traces ≠ []
      ∧ Ev.fork ∈ (programRun wr5 okS okB okB).dtrace
      ∧ Ev.wait ∉ (programRun wr5 okS okB okB).dtrace
      ∧ Ev.exitEv 1 ∈ (programRun wr5 okS okB okB).dtrace := by
  decide

/-- C5 (amended): every stage that spawned a successor closes its
output write end, then waits for the successor, then exits 0 — it never
terminates before the successor is joined; and the driver joins stage 0
before returning provided all feeder writes succeed (on a feeder write
failure it exits 1 without waiting). -/
theorem claim_C5_amended :
    ∀ (pipeOk forkOk : Nat → Bool) (swr : Nat → Nat → Bool)
      (wr : Nat → Bool) (d : Nat) (l : List Nat),
      (∀ tr ∈ (sieve pipeOk forkOk swr d l).traces, Ev.fork ∈ tr →
        ∃ pre c, tr = pre ++ [Ev.closeW c, Ev.wait, Ev.exitEv 0])
      ∧ ((feed_numbers wr).2 = 0 →
          driverTrace wr
            = [Ev.fork, Ev.closeR 0, Ev.closeW 0, Ev.wait, Ev.exitEv 0]) := by
  intro pipeOk forkOk swr wr d l
  refine ⟨fun tr htr hf =>
    sieveAux_fork_joins pipeOk forkOk swr l.length d l tr htr hf, ?_⟩
  intro h
  simp [driverTrace, h]

/-- C5 (witness): the amended claim instantiated on the failure-free run
of the chain on `[2, 3]` and the failure-free feeder. -/
theorem claim_C5_witness :
    (∃ pre c,
      [Ev.print 2, Ev.fork, Ev.closeR 1, Ev.closeR 0, Ev.closeW 1,
        Ev.wait, Ev.exitEv 0] = pre ++ [Ev.closeW c, Ev.wait, Ev.exitEv 0])
      ∧ driverTrace okB
        = [Ev.fork, Ev.closeR 0, Ev.closeW 0, Ev.wait, Ev.exitEv 0] :=
  ⟨(claim_C5_amended okB okB okS okB 0 [2, 3]).1 _ (by decide) (by decide),
   (claim_C5_amended okB okB okS okB 0 [2, 3]).2 (by decide)⟩

/-- C6: the pipeline terminates on every finite input: whatever failures
are injected, a chain fed a stream of length `k` creates at most `k + 1`
processes, every process trace ends with an `exit` event, and the driver
trace ends with an `exit` event. -/
theorem claim_C6_termination :
    ∀ (pipeOk forkOk : Nat → Bool) (swr : Nat → Nat → Bool)
      (wr : Nat → Bool) (d : Nat) (l : List Nat),
      (sieve pipeOk forkOk swr d l).traces.length ≤ l.length + 1
      ∧ (∀ tr ∈ (sieve pipeOk forkOk swr d l).traces,
          ∃ s pre, tr = pre ++ [Ev.exitEv s])
      ∧ (∃ s pre, driverTrace wr = pre ++ [Ev.exitEv s]) := by
  intro pipeOk forkOk swr wr d l
  refine ⟨sieveAux_traces_length pipeOk forkOk swr l.length d l,
    fun tr htr => sieveAux_ends_exit pipeOk forkOk swr l.length d l tr htr,
    ?_⟩
  rcases h : (feed_numbers wr).2 == 1 with _ | _
  · exact ⟨0, [Ev.fork, Ev.closeR 0, Ev.closeW 0, Ev.wait],
      by simp [driverTrace, h]⟩
  · exact ⟨1, [Ev.fork, Ev.closeR 0, Ev.err], by simp [driverTrace, h]⟩

/-- C6 (witness): the termination bound instantiated on the chain run on
`[2, 3]` — two stages for a two-value stream — and one of its traces. -/
theorem claim_C6_witness :
    (sieve okB okB okS 0 [2, 3]).traces.length ≤ 3
      ∧ (∃ s pre,
          [Ev.closeW 1, Ev.closeR 0, Ev.print 3, Ev.closeR 1, Ev.exitEv 0]
            = pre ++ [Ev.exitEv s]) :=
  ⟨(claim_C6_termination okB okB okS okB 0 [2, 3]).1,
   (claim_C6_termination okB okB okS okB 0 [2, 3]).2.1 _ (by decide)⟩

/-- C7 (counterexample): when the feeder's write of the value 5 fails,
it has written `[2, 3, 4]`, reports the error and exits the driver
process with status 1 — fatal to the driver — without any explicit close
of the write end and without waiting for the chain. -/
theorem claim_C7_counterexample :
    driverStatus wr5 = 1
      ∧ driverTrace wr5 = [Ev.fork, Ev.closeR 0, Ev.err, Ev.exitEv 1]
      ∧ Ev.closeW 0 ∉ driverTrace wr5
      ∧ Ev.wait ∉ driverTrace wr5
      ∧ (feed_numbers wr5).1 = [2, 3, 4] := by
  decide

/-- C7 (amended): the feeder writes an ascending initial segment of
2..35 (all of it when no write fails); a send failure is reported and is
fatal: the driver process exits with status 1, skipping the explicit
close of the write end and the join of the chain, both of which happen
(in the driver, not the feeder) only on the success path. -/
theorem claim_C7_amended :
    ∀ wr : Nat → Bool,
      (∃ t, (feed_numbers wr).1 ++ t = List.range' 2 34)
      ∧ List.Pairwise (· < ·) (feed_numbers wr).1
      ∧ ((feed_numbers wr).2 = 1 →
          driverStatus wr = 1 ∧ Ev.wait ∉ driverTrace wr
            ∧ Ev.closeW 0 ∉ driverTrace wr)
      ∧ ((feed_numbers wr).2 = 0 →
          (feed_numbers wr).1 = List.range' 2 34
            ∧ Ev.closeW 0 ∈ driverTrace wr) := by
  intro wr
  obtain ⟨t, ht⟩ := feedLoop_fst_app wr (List.range' 2 34)
  refine ⟨⟨t, ht⟩, ?_, ?_, ?_⟩
  · have hsub : List.Sublist (feed_numbers wr).1 (List.range' 2 34) := by
      rw [← ht]
      exact List.sublist_append_left _ _
    exact List.Pairwise.sublist hsub (by decide)
  · intro h1
    refine ⟨by simp [driverStatus, h1], ?_, ?_⟩ <;> simp [driverTrace, h1]
  · intro h0
    exact ⟨feedLoop_fst_complete wr _ h0, by simp [driverTrace, h0]⟩

/-- C7 (witness): the amended claim instantiated at the oracle that
fails the write of 5. -/
theorem claim_C7_witness :
    (feed_numbers wr5).2 = 1
      ∧ driverStatus wr5 = 1 ∧ Ev.wait ∉ driverTrace wr5 :=
  ⟨by decide, ((claim_C7_amended wr5).2.2.1 (by decide)).1,
   ((claim_C7_amended wr5).2.2.1 (by decide)).2.1⟩

/-- C8 (counterexample): with `fork()` refused when creating the 4th
stage, the primes 2, 3, 5 found before the failure are still printed,
but the process exit status is 0, not non-zero: the failing stage's
`exit(1)` is discarded by its parent's `wait(0)`. -/
theorem claim_C8_counterexample :
    (programRun okB okS okB f3).printed = [2, 3, 5]
      ∧ (programRun okB okS okB f3).status = 0 := by
  decide

/-- C8 (amended): if creating the 4th stage fails — `fork()` refused
(run shown in full) or `pipe()` refused — the stage attempting the spawn
reports the failure, closes every channel end it holds (`leftfd` alone
for a pipe failure; `leftfd`, `next[0]`, `next[1]` for a fork failure),
and exits with status 1; the primes 2, 3, 5 printed before the failure
remain in the output and every process trace still ends with an exit
event (no unit remains blocked), but the driver's exit status stays 0. -/
theorem claim_C8_amended :
    (programRun okB okS okB f3).printed = [2, 3, 5]
      ∧ (programRun okB okS okB f3).traces
        = [[Ev.closeW 0, Ev.print 2, Ev.fork, Ev.closeR 1, Ev.closeR 0,
            Ev.closeW 1, Ev.wait, Ev.exitEv 0],
           [Ev.closeW 1, Ev.closeR 0, Ev.print 3, Ev.fork, Ev.closeR 2,
            Ev.closeR 1, Ev.closeW 2, Ev.wait, Ev.exitEv 0],
           [Ev.closeW 2, Ev.closeR 1, Ev.print 5, Ev.err, Ev.closeR 2,
            Ev.closeR 3, Ev.closeW 3, Ev.exitEv 1]]
      ∧ (programRun okB okS okB f3).status = 0
      ∧ (programRun okB okS p3 okB).printed = [2, 3, 5]
      ∧ (programRun okB okS p3 okB).traces.getLast?
        = some [Ev.closeW 2, Ev.closeR 1, Ev.print 5, Ev.err, Ev.closeR 2,
                Ev.exitEv 1]
      ∧ (programRun okB okS p3 okB).status = 0 := by
  decide

/-- C9: a stage whose input yields end-of-stream before any value
prints nothing, closes its input read end, exits 0 and does nothing
else; and in a run in which this occurs (all of stage 0's forwarding
writes fail, so stage 1 receives nothing), the whole pipeline exits
cleanly with status 0. -/
theorem claim_C9_empty_input :
    (∀ (pipeOk forkOk : Nat → Bool) (swr : Nat → Nat → Bool) (d : Nat),
      sieve pipeOk forkOk swr d []
        = ⟨[], 0, [[Ev.closeR d, Ev.exitEv 0]]⟩)
      ∧ (programRun okB swrBad okB okB).printed = [2]
      ∧ (programRun okB swrBad okB okB).status = 0
      ∧ (programRun okB swrBad okB okB).traces.getLast?
        = some [Ev.closeW 1, Ev.closeR 0, Ev.closeR 1, Ev.exitEv 0] := by
  refine ⟨fun pipeOk forkOk swr d => ?_, by decide, by decide, by decide⟩
  exact sieveAux_nil pipeOk forkOk swr 0 d

/-- C10: the program never reads its command-line arguments — `main`'s
body mentions neither `argc` nor `argv` — so any two invocations print
the same lines and exit with the same status, and the sieved range is
always 2..35. -/
theorem claim_C10_ignores_argv :
    (∀ a b : List String, mainRun a = mainRun b)
      ∧ mainRun [] = ([2, 3, 5, 7, 11, 13, 17, 19, 23, 29, 31], 0)
      ∧ (feed_numbers okB).1 = List.range' 2 34 :=
  ⟨fun a b => rfl, by decide, by decide⟩
